import Mathlib

/-!
A shallow embedding of the eduflow-platform data model and operations.

The relational schema and row-level-security policies come from
supabase/migrations/20251122081601.sql; the client-side operations come from
src/pages/Dashboard.tsx (handleView, handleDownload, filteredResources,
fetchResources), src/pages/Users.tsx (handleUpload), src/pages/Analytics.tsx
(fetchAnalytics), and src/components/ProtectedRoute.tsx with the route table
of src/App.tsx.

Identifiers (UUIDs) are modelled as Nat, timestamps as Nat seconds since an
epoch, and each table as a list of rows.
-/

/-- app_role enum from the migration: student, teacher, admin. -/
inductive Role where
  | student : Role
  | teacher : Role
  | admin : Role
deriving DecidableEq

/-- row of public.user_roles: a (user_id, role) pair. -/
structure RoleAssignment where
  user_id : Nat
  role : Role
deriving DecidableEq

/-- row of public.categories. -/
structure Category where
  id : Nat
  name : String
deriving DecidableEq

/-- row of public.resources; view_count and download_count have schema default 0. -/
structure Resource where
  id : Nat
  title : String
  description : Option String
  category_id : Option Nat
  file_url : String
  file_type : String
  file_size : Nat
  uploaded_by : Nat
  view_count : Nat
  download_count : Nat
  created_at : Nat
deriving DecidableEq

/-- row of public.resource_views: one immutable view event. -/
structure ViewEvent where
  resource_id : Nat
  user_id : Option Nat
  viewed_at : Nat
deriving DecidableEq

/-- the relational store: the four tables the claims are about. -/
structure DB where
  user_roles : List RoleAssignment
  categories : List Category
  resources : List Resource
  resource_views : List ViewEvent
deriving DecidableEq

/-- public.has_role(_user_id, _role): SELECT EXISTS (SELECT 1 FROM user_roles
WHERE user_id = _user_id AND role = _role). -/
def has_role (db : DB) (uid : Nat) (r : Role) : Bool :=
  db.user_roles.any (fun ra => decide (ra.user_id = uid ∧ ra.role = r))

/-- metadata supplied by the upload form in handleUpload (Users.tsx): title,
description, category (empty selection stored as null), the public URL of the
stored object, the derived file type, and the file size. -/
structure NewResourceMeta where
  title : String
  description : Option String
  category_id : Option Nat
  file_url : String
  file_type : String
  file_size : Nat
deriving DecidableEq

/-- the catalog row built by the insert in handleUpload: the form fields plus
uploaded_by; view_count and download_count are not set by the insert and take
the schema defaults 0, created_at takes the schema default now(). -/
def mkResource (id : Nat) (m : NewResourceMeta) (owner : Nat) (t : Nat) : Resource :=
  { id := id, title := m.title, description := m.description,
    category_id := m.category_id, file_url := m.file_url,
    file_type := m.file_type, file_size := m.file_size, uploaded_by := owner,
    view_count := 0, download_count := 0, created_at := t }

/-- insert into public.resources, gated by the RLS policy "Teachers can create
resources": WITH CHECK (has_role(auth.uid(), teacher) OR
has_role(auth.uid(), admin)). A rejected insert (none) creates no row. -/
def createResource (db : DB) (id : Nat) (m : NewResourceMeta) (owner : Nat)
    (t : Nat) : Option DB :=
  if has_role db owner Role.teacher || has_role db owner Role.admin then
    some { db with resources := mkResource id m owner t :: db.resources }
  else
    none

/-- handleView in Dashboard.tsx, taking the fetched resource object as an
explicit snapshot argument: it inserts one resource_views row for the snapshot
id with the acting user, then updates the catalog row whose id matches,
setting view_count to the SNAPSHOT count plus one (read-modify-write). -/
def handleView (db : DB) (snapshot : Resource) (uid : Option Nat) (t : Nat) : DB :=
  { db with
    resource_views := db.resource_views ++ [⟨snapshot.id, uid, t⟩],
    resources := db.resources.map (fun r =>
      if r.id = snapshot.id then { r with view_count := snapshot.view_count + 1 } else r) }

/-- handleDownload in Dashboard.tsx: updates the catalog row whose id matches
the fetched snapshot, setting download_count to the snapshot count plus one;
it touches no other table and no other field. -/
def handleDownload (db : DB) (snapshot : Resource) : DB :=
  { db with
    resources := db.resources.map (fun r =>
      if r.id = snapshot.id then { r with download_count := snapshot.download_count + 1 } else r) }

/-- first catalog row with the given id (ids are unique in the real store). -/
def findResource (db : DB) (rid : Nat) : Option Resource :=
  db.resources.find? (fun r => decide (r.id = rid))

/-- name of the category a resource refers to, resolved through the categories
table, as fetchResources in Dashboard.tsx resolves it (null reference and
missing category both resolve to nothing). -/
def resolveCategory (cats : List Category) (cid : Option Nat) : Option String :=
  cid.bind (fun c => (cats.find? (fun k => decide (k.id = c))).map (fun k => k.name))

/-- display fallback of Dashboard.tsx line 241: the resolved category name, or
the string "Uncategorized" when the reference is absent. -/
def displayCategory (c : Option String) : String := c.getD "Uncategorized"

/-- DELETE on public.categories: removes the category row; the foreign key
resources.category_id has ON DELETE SET NULL, so every catalog row referencing
the deleted category has its reference set to null and is otherwise kept. -/
def deleteCategory (db : DB) (cid : Nat) : DB :=
  { db with
    categories := db.categories.filter (fun c => decide (c.id ≠ cid)),
    resources := db.resources.map (fun r =>
      if r.category_id = some cid then { r with category_id := none } else r) }

/-- resource as fetched by fetchResources in Dashboard.tsx: the catalog row
together with its resolved category name. -/
structure FetchedResource extends Resource where
  categories : Option String
deriving DecidableEq

/-- checks that pat occurs at the start of s (character-wise). -/
def prefixMatch : List Char → List Char → Bool
  | [], _ => true
  | _ :: _, [] => false
  | a :: as, b :: bs => a == b && prefixMatch as bs

/-- checks that pat occurs somewhere in s, as the JS String.includes used by
filteredResources does. -/
def substrMatch (pat : List Char) : List Char → Bool
  | [] => pat.isEmpty
  | c :: rest => prefixMatch pat (c :: rest) || substrMatch pat rest

/-- case-insensitive substring test: title.toLowerCase().includes(q.toLowerCase()). -/
def containsLower (s q : String) : Bool :=
  substrMatch q.toLower.toList s.toLower.toList

/-- search predicate of filteredResources (Dashboard.tsx lines 162 to 163):
the query matches the title, or the description when one is present. -/
def matchesSearch (r : FetchedResource) (q : String) : Bool :=
  containsLower r.title q ||
    (match r.description with
     | some d => containsLower d q
     | none => false)

/-- category predicate of filteredResources (Dashboard.tsx line 164): the
selection "all" passes everything, otherwise the resolved category name must
equal the selection. -/
def matchesCategory (r : FetchedResource) (sel : String) : Bool :=
  sel == "all" ||
    (match r.categories with
     | some n => n == sel
     | none => false)

/-- filteredResources (Dashboard.tsx lines 161 to 166). -/
def filteredResources (rs : List FetchedResource) (q sel : String) : List FetchedResource :=
  rs.filter (fun r => matchesSearch r q && matchesCategory r sel)

/-- fetchResources (Dashboard.tsx lines 59 to 100): the catalog ordered by
created_at descending, each row enriched with its resolved category name. -/
def fetchResources (db : DB) : List FetchedResource :=
  (db.resources.mergeSort (fun a b => decide (b.created_at ≤ a.created_at))).map
    (fun r => ⟨r, resolveCategory db.categories r.category_id⟩)

/-- listing as the Dashboard renders it: fetchResources followed by
filteredResources with the current search text and category selection. -/
def listResources (db : DB) (q sel : String) : List FetchedResource :=
  filteredResources (fetchResources db) q sel

/-- sample catalog row used by concrete instantiations. -/
def sampleRes : Resource :=
  ⟨1, "t", none, none, "u", "pdf", 0, 7, 0, 0, 0⟩

/-- second sample catalog row with a different id. -/
def sampleRes2 : Resource :=
  ⟨2, "s", some "d", some 4, "v", "video", 1, 8, 3, 4, 9⟩

/-- sample store holding the single row sampleRes. -/
def sampleDb : DB := ⟨[], [], [sampleRes], []⟩

/-- sample store holding sampleRes and sampleRes2. -/
def sampleDb2 : DB := ⟨[], [], [sampleRes, sampleRes2], []⟩

/-- sample store with one category (id 4) referenced by sampleRes2. -/
def sampleDb3 : DB := ⟨[], [⟨4, "Math"⟩], [sampleRes2], []⟩

/-- calendar day of a timestamp (days since the epoch), the grouping key that
fetchAnalytics derives with toLocaleDateString. -/
def dayOf (t : Nat) : Nat := t / 86400

/-- window filter of fetchAnalytics (Analytics.tsx line 72): keeps events with
viewed_at at least now minus 7 times 24 hours (604800 seconds). -/
def inWindow (now : Nat) (v : ViewEvent) : Bool :=
  decide (now - 604800 ≤ v.viewed_at)

/-- first occurrences of each value, in order of first appearance, as the keys
of the JS object built by fetchAnalytics appear. -/
def uniqueDates : List Nat → List Nat
  | [] => []
  | d :: ds => d :: (uniqueDates ds).filter (fun x => decide (x ≠ d))

/-- view-trend aggregation of fetchAnalytics (Analytics.tsx lines 68 to 83):
filter the event log to the trailing window, then count events per calendar
day of the filtered set. -/
def viewTrends (views : List ViewEvent) (now : Nat) : List (Nat × Nat) :=
  let recent := views.filter (inWindow now)
  let dates := uniqueDates (recent.map (fun v => dayOf v.viewed_at))
  dates.map (fun d => (d, recent.countP (fun v => decide (dayOf v.viewed_at = d))))

/-- event log spanning the 10 calendar days 0 to 9: one event at 18:00 of each
of the days 0 to 8, one event at 06:00 of day 9, and an extra event at 06:00
of day 2. -/
def exViews : List ViewEvent :=
  [⟨0, none, 64800⟩, ⟨1, none, 151200⟩, ⟨2, none, 237600⟩, ⟨3, none, 324000⟩,
   ⟨4, none, 410400⟩, ⟨5, none, 496800⟩, ⟨6, none, 583200⟩, ⟨7, none, 669600⟩,
   ⟨8, none, 756000⟩, ⟨9, none, 799200⟩, ⟨10, none, 194400⟩]

/-- query time for the sample log: noon of day 9, so the window lower bound is
noon of day 2. -/
def exNow : Nat := 820800

/-- what ProtectedRoute renders: the loading spinner, a redirect to the auth
route, a redirect to the dashboard route, or the protected children. -/
inductive RouteResult where
  | loadingView : RouteResult
  | toAuth : RouteResult
  | toDashboard : RouteResult
  | children : RouteResult
deriving DecidableEq

/-- ProtectedRoute.tsx: while loading show a spinner; without a user navigate
to the auth route; with a requireRole list AND a present userRole not included
in the list navigate to the dashboard route; otherwise render the children. -/
def protectedRoute (loading : Bool) (user : Option Nat) (userRole : Option Role)
    (requireRole : Option (List Role)) : RouteResult :=
  if loading then RouteResult.loadingView
  else
    match user with
    | none => RouteResult.toAuth
    | some _ =>
      match requireRole, userRole with
      | some rs, some ro =>
          if ro ∈ rs then RouteResult.children else RouteResult.toDashboard
      | _, _ => RouteResult.children

/-- required role sets of the gated routes in App.tsx: upload and analytics
require teacher or admin, users requires admin. -/
def gatedRoutes : List (List Role) :=
  [[Role.teacher, Role.admin], [Role.teacher, Role.admin], [Role.admin]]

/-- one client step of a recordView invocation by thread t: read fetches the
current view_count into the local snapshot of t (the fetchResources read that
handleView later uses), write is the update statement storing snapshot + 1. -/
inductive RVAction where
  | read : Nat → RVAction
  | write : Nat → RVAction
deriving DecidableEq

/-- thread id of an action. -/
def rvTid : RVAction → Nat
  | RVAction.read t => t
  | RVAction.write t => t

/-- shared counter together with the per-thread snapshots taken so far. -/
structure RVState where
  count : Nat
  regs : List (Nat × Nat)
deriving DecidableEq

/-- snapshot taken by thread t (0 when t never read, which valid schedules
rule out). -/
def lookupReg (regs : List (Nat × Nat)) (t : Nat) : Nat :=
  match regs.find? (fun p => decide (p.1 = t)) with
  | some p => p.2
  | none => 0

/-- interleaving semantics of the two effects of one invocation. -/
def rvStep (s : RVState) (a : RVAction) : RVState :=
  match a with
  | RVAction.read t => { s with regs := (t, s.count) :: s.regs }
  | RVAction.write t => { s with count := lookupReg s.regs t + 1 }

/-- runs a schedule of interleaved actions from a state. -/
def rvRun (acts : List RVAction) (s : RVState) : RVState :=
  acts.foldl rvStep s

/-- checks that a projected action list is exactly one read followed by one
write of thread t. -/
def isReadWritePair : List RVAction → Nat → Bool
  | [RVAction.read t1, RVAction.write t2], t => decide (t1 = t) && decide (t2 = t)
  | _, _ => false

/-- a schedule is an interleaving of n recordView invocations: every thread
below n performs exactly one read followed by one write, and no other thread
acts. -/
def validSchedule (n : Nat) (acts : List RVAction) : Bool :=
  (List.range n).all (fun t =>
      isReadWritePair (acts.filter (fun a => decide (rvTid a = t))) t)
    && acts.all (fun a => decide (rvTid a < n))

/-- the serial schedule: each invocation completes before the next starts. -/
def seqSchedule : Nat → List RVAction
  | 0 => []
  | n + 1 => seqSchedule n ++ [RVAction.read n, RVAction.write n]

/-- the racy interleaving: both invocations read before either writes. -/
def raceSchedule : List RVAction :=
  [RVAction.read 0, RVAction.read 1, RVAction.write 0, RVAction.write 1]

/-- C1: has_role(p, r) is true iff a RoleAssignment row (p, r) exists in the
role store, and false otherwise, including when p has no rows at all. -/
theorem has_role_iff_exists (db : DB) (p : Nat) (r : Role) :
    has_role db p r = true ↔
      ∃ ra, ra ∈ db.user_roles ∧ ra.user_id = p ∧ ra.role = r := by
  simp [has_role, List.any_eq_true]

/-- C3: createResource by a principal with neither the teacher nor the admin
role is rejected and creates no catalog row; by a teacher or admin it succeeds
and adds exactly one new catalog row, whose view_count and download_count are
both 0, on top of the unchanged existing rows. -/
theorem createResource_policy (db : DB) (id : Nat) (m : NewResourceMeta)
    (owner : Nat) (t : Nat) :
    (has_role db owner Role.teacher = false ∧ has_role db owner Role.admin = false →
        createResource db id m owner t = none) ∧
    (has_role db owner Role.teacher = true ∨ has_role db owner Role.admin = true →
        createResource db id m owner t =
          some { db with resources := mkResource id m owner t :: db.resources } ∧
        (mkResource id m owner t).view_count = 0 ∧
        (mkResource id m owner t).download_count = 0 ∧
        ∀ db', createResource db id m owner t = some db' →
          db'.resources.length = db.resources.length + 1) := by
  constructor
  · intro h
    simp [createResource, h.1, h.2]
  · intro h
    have hc : (has_role db owner Role.teacher || has_role db owner Role.admin) = true := by
      rcases h with h | h <;> simp [h]
    refine ⟨by simp [createResource, hc], rfl, rfl, ?_⟩
    intro db' hdb'
    simp only [createResource, hc, if_true, Option.some.injEq] at hdb'
    subst hdb'
    simp [mkResource]

/-- C3 witness: in a store where principal 1 holds the teacher role and
principal 2 holds no role, createResource succeeds for 1 with fresh counters
and is rejected for 2. -/
theorem createResource_policy_witness :
    (let db : DB := ⟨[⟨1, Role.teacher⟩], [], [], []⟩
     let m : NewResourceMeta := ⟨"t", none, none, "u", "pdf", 3⟩
     createResource db 10 m 1 5 =
        some { db with resources := mkResource 10 m 1 5 :: db.resources } ∧
     (mkResource 10 m 1 5).view_count = 0 ∧
     (mkResource 10 m 1 5).download_count = 0) ∧
    (let db : DB := ⟨[⟨1, Role.teacher⟩], [], [], []⟩
     let m : NewResourceMeta := ⟨"t", none, none, "u", "pdf", 3⟩
     createResource db 10 m 2 5 = none) := by
  refine ⟨?_, ?_⟩
  · have h := createResource_policy ⟨[⟨1, Role.teacher⟩], [], [], []⟩ 10
      ⟨"t", none, none, "u", "pdf", 3⟩ 1 5
    have h2 := h.2 (Or.inl (by decide))
    exact ⟨h2.1, h2.2.1, h2.2.2.1⟩
  · have h := createResource_policy ⟨[⟨1, Role.teacher⟩], [], [], []⟩ 10
      ⟨"t", none, none, "u", "pdf", 3⟩ 2 5
    exact h.1 (by decide)

/-- C4: a single, non-concurrent recordView by principal S on a catalog row s
(its fetched snapshot equals the stored row, and s is the only row with its
id) appends exactly one ViewEvent carrying user_id S and the resource id, and
increments the view_count of that row by exactly 1, leaving every other row
and the other tables unchanged. -/
theorem recordView_single (db : DB) (s : Resource) (uid t : Nat)
    (hs : s ∈ db.resources)
    (huniq : ∀ r ∈ db.resources, r.id = s.id → r = s) :
    (handleView db s (some uid) t).resource_views =
        db.resource_views ++ [⟨s.id, some uid, t⟩] ∧
    (handleView db s (some uid) t).resources =
        db.resources.map (fun r =>
          if r.id = s.id then { r with view_count := r.view_count + 1 } else r) ∧
    (handleView db s (some uid) t).user_roles = db.user_roles ∧
    (handleView db s (some uid) t).categories = db.categories := by
  refine ⟨rfl, ?_, rfl, rfl⟩
  simp only [handleView]
  apply List.map_congr_left
  intro r hr
  by_cases h : r.id = s.id
  · have hrs : r = s := huniq r hr h
    subst hrs
    simp
  · simp [h]

/-- C4 witness: recordView at the one-row sample store. -/
theorem recordView_single_witness :
    (handleView sampleDb sampleRes (some 5) 10).resource_views =
        sampleDb.resource_views ++ [⟨sampleRes.id, some 5, 10⟩] ∧
    (handleView sampleDb sampleRes (some 5) 10).resources =
        sampleDb.resources.map (fun r =>
          if r.id = sampleRes.id then { r with view_count := r.view_count + 1 } else r) ∧
    (handleView sampleDb sampleRes (some 5) 10).user_roles = sampleDb.user_roles ∧
    (handleView sampleDb sampleRes (some 5) 10).categories = sampleDb.categories :=
  recordView_single sampleDb sampleRes 5 10 (by simp [sampleDb])
    (by intro r hr h; simpa [sampleDb] using hr)

/-- C10: recordDownload inserts no ViewEvent and leaves user_roles and
categories alone; it preserves the number of catalog rows, changes no field
other than download_count on any row (in particular every view_count is
unchanged), and every row whose id differs from the target survives
unmodified. -/
theorem recordDownload_frame (db : DB) (s : Resource) :
    (handleDownload db s).resource_views = db.resource_views ∧
    (handleDownload db s).user_roles = db.user_roles ∧
    (handleDownload db s).categories = db.categories ∧
    (handleDownload db s).resources.length = db.resources.length ∧
    (handleDownload db s).resources.map (fun r => r.view_count) =
        db.resources.map (fun r => r.view_count) ∧
    (handleDownload db s).resources.map (fun r => { r with download_count := 0 }) =
        db.resources.map (fun r => { r with download_count := 0 }) ∧
    ∀ r ∈ db.resources, r.id ≠ s.id → r ∈ (handleDownload db s).resources := by
  refine ⟨rfl, rfl, rfl, by simp [handleDownload], ?_, ?_, ?_⟩
  · simp only [handleDownload, List.map_map]
    apply List.map_congr_left
    intro r _
    by_cases h : r.id = s.id <;> simp [h]
  · simp only [handleDownload, List.map_map]
    apply List.map_congr_left
    intro r _
    by_cases h : r.id = s.id <;> simp [h]
  · intro r hr h
    simp only [handleDownload]
    exact List.mem_map.mpr ⟨r, hr, by simp [h]⟩

/-- C10 witness: at the two-row sample store, the event log is unchanged and
the untargeted row survives the download untouched. -/
theorem recordDownload_frame_witness :
    (handleDownload sampleDb2 sampleRes).resource_views = sampleDb2.resource_views ∧
    sampleRes2 ∈ (handleDownload sampleDb2 sampleRes).resources :=
  ⟨(recordDownload_frame sampleDb2 sampleRes).1,
   (recordDownload_frame sampleDb2 sampleRes).2.2.2.2.2.2 sampleRes2
     (by simp [sampleDb2]) (by decide)⟩

/-- C7: deleting a category keeps every catalog row (and the other tables
except categories): the row count is unchanged, no field other than the
category reference changes on any row, the reference of rows that pointed at
the deleted category becomes none while all other references are untouched,
the deleted category no longer resolves, and a row whose reference was cleared
is displayed under the fallback name "Uncategorized". -/
theorem deleteCategory_frame (db : DB) (cid : Nat) :
    (deleteCategory db cid).user_roles = db.user_roles ∧
    (deleteCategory db cid).resource_views = db.resource_views ∧
    (deleteCategory db cid).resources.length = db.resources.length ∧
    (deleteCategory db cid).resources.map (fun r => { r with category_id := none }) =
        db.resources.map (fun r => { r with category_id := none }) ∧
    (deleteCategory db cid).resources.map (fun r => r.category_id) =
        db.resources.map (fun r =>
          if r.category_id = some cid then none else r.category_id) ∧
    resolveCategory (deleteCategory db cid).categories (some cid) = none ∧
    ∀ r ∈ db.resources, r.category_id = some cid →
      { r with category_id := none } ∈ (deleteCategory db cid).resources ∧
      displayCategory (resolveCategory (deleteCategory db cid).categories
        (({ r with category_id := none } : Resource).category_id)) = "Uncategorized" := by
  refine ⟨rfl, rfl, by simp [deleteCategory], ?_, ?_, ?_, ?_⟩
  · simp only [deleteCategory, List.map_map]
    apply List.map_congr_left
    intro r _
    by_cases h : r.category_id = some cid <;> simp [h]
  · simp only [deleteCategory, List.map_map]
    apply List.map_congr_left
    intro r _
    by_cases h : r.category_id = some cid <;> simp [h]
  · simp only [resolveCategory, deleteCategory, Option.bind_eq_bind, Option.some_bind]
    rw [List.find?_eq_none.mpr]
    · rfl
    · intro c hc
      have := List.of_mem_filter hc
      simp at this ⊢
      exact this
  · intro r hr h
    refine ⟨?_, rfl⟩
    simp only [deleteCategory]
    exact List.mem_map.mpr ⟨r, hr, by simp [h]⟩

/-- C7 witness: deleting category 4, which sampleRes2 references, keeps the
row with its reference cleared and displays it as "Uncategorized". -/
theorem deleteCategory_frame_witness :
    { sampleRes2 with category_id := none } ∈ (deleteCategory sampleDb3 4).resources ∧
    displayCategory (resolveCategory (deleteCategory sampleDb3 4).categories
      (({ sampleRes2 with category_id := none } : Resource).category_id)) = "Uncategorized" :=
  (deleteCategory_frame sampleDb3 4).2.2.2.2.2.2 sampleRes2 (by simp [sampleDb3])
    (by decide)

/-- C5: listResources is ordered by created_at descending, and a fetched row
belongs to the result exactly when it enriches a stored catalog row with its
resolved category name and passes both the case-insensitive title-or-
description substring test and the category test; the selection "all" passes
every row through the category test. -/
theorem listResources_spec (db : DB) (q sel : String) :
    (listResources db q sel).Pairwise
      (fun a b => b.created_at ≤ a.created_at) ∧
    (∀ r, r ∈ listResources db q sel ↔
      ((∃ s ∈ db.resources,
          r = ⟨s, resolveCategory db.categories s.category_id⟩) ∧
        matchesSearch r q = true ∧ matchesCategory r sel = true)) ∧
    (∀ r : FetchedResource, matchesCategory r "all" = true) := by
  refine ⟨?_, ?_, ?_⟩
  · have hs : (db.resources.mergeSort
        (fun a b => decide (b.created_at ≤ a.created_at))).Pairwise
        (fun a b => decide (b.created_at ≤ a.created_at)) := by
      apply List.sorted_mergeSort
      · intro a b c hab hbc
        have h1 := of_decide_eq_true hab
        have h2 := of_decide_eq_true hbc
        exact decide_eq_true (Nat.le_trans h2 h1)
      · intro a b
        rcases Nat.le_total b.created_at a.created_at with h | h <;> simp [h]
    have h1 : ((db.resources.mergeSort
        (fun a b => decide (b.created_at ≤ a.created_at))).map
        (fun r => (⟨r, resolveCategory db.categories r.category_id⟩ : FetchedResource))).Pairwise
        (fun a b => b.created_at ≤ a.created_at) :=
      hs.map _ (fun a b hab => of_decide_eq_true hab)
    exact h1.filter _
  · intro r
    constructor
    · intro h
      rcases List.mem_filter.mp h with ⟨hmem, hp⟩
      rcases List.mem_map.mp hmem with ⟨s, hsmem, rfl⟩
      rw [Bool.and_eq_true] at hp
      exact ⟨⟨s, (List.mergeSort_perm _ _).subset hsmem, rfl⟩, hp.1, hp.2⟩
    · rintro ⟨⟨s, hsmem, rfl⟩, h1, h2⟩
      apply List.mem_filter.mpr
      refine ⟨List.mem_map.mpr ⟨s, ?_, rfl⟩, by rw [Bool.and_eq_true]; exact ⟨h1, h2⟩⟩
      exact (List.mergeSort_perm db.resources _).mem_iff.mpr hsmem
  · intro r
    simp [matchesCategory]

theorem mem_uniqueDates {x : Nat} : ∀ {l : List Nat}, x ∈ uniqueDates l ↔ x ∈ l
  | [] => by simp [uniqueDates]
  | d :: ds => by
    by_cases h : x = d
    · simp [uniqueDates, h]
    · simp [uniqueDates, List.mem_filter, h, mem_uniqueDates (l := ds)]

theorem nodup_uniqueDates : ∀ {l : List Nat}, (uniqueDates l).Nodup
  | [] => by simp [uniqueDates]
  | d :: ds => by
    rw [uniqueDates, List.nodup_cons]
    refine ⟨?_, List.Nodup.filter _ (nodup_uniqueDates (l := ds))⟩
    intro hmem
    have := List.of_mem_filter hmem
    simp at this

/-- C6 counterexample: on the sample log spanning 10 calendar days queried at
noon of day 9, the aggregation returns 8 calendar-day buckets, not 7 (the
trailing 7 times 24 hour window cuts across day 2), and the day 2 bucket
counts 1 even though 2 events of the log fall on day 2 (the 06:00 event of
day 2 lies outside the window). -/
theorem viewTrends_code_counterexample :
    (viewTrends exViews exNow).length = 8 ∧
    (2, 1) ∈ viewTrends exViews exNow ∧
    exViews.countP (fun v => decide (dayOf v.viewed_at = 2)) = 2 := by
  decide

/-- C6 amended: the aggregation returns one bucket per calendar day occurring
among the events of the trailing 7 times 24 hour window (up to 8 such days,
since the window cuts across its oldest day), and each bucket counts exactly
the IN-WINDOW events of its day; events of a bucketed day lying before the
window lower bound are not counted. -/
theorem viewTrends_amended (views : List ViewEvent) (now : Nat) :
    ((viewTrends views now).map Prod.fst).Nodup ∧
    (∀ d, d ∈ (viewTrends views now).map Prod.fst ↔
      ∃ v ∈ views, inWindow now v = true ∧ dayOf v.viewed_at = d) ∧
    (∀ d c, (d, c) ∈ viewTrends views now →
      c = (views.filter (inWindow now)).countP
            (fun v => decide (dayOf v.viewed_at = d))) := by
  have hid : (Prod.fst ∘ fun d : Nat =>
      (d, (views.filter (inWindow now)).countP
        (fun v => decide (dayOf v.viewed_at = d)))) = id := rfl
  refine ⟨?_, ?_, ?_⟩
  · simp only [viewTrends, List.map_map]
    rw [hid, List.map_id]
    exact nodup_uniqueDates
  · intro d
    simp only [viewTrends, List.map_map]
    rw [hid, List.map_id]
    simp [mem_uniqueDates, List.mem_map, List.mem_filter, and_assoc]
  · intro d c hmem
    simp only [viewTrends, List.mem_map] at hmem
    rcases hmem with ⟨d', _, heq⟩
    rcases Prod.mk.injEq .. ▸ heq with ⟨h1, h2⟩
    subst h1
    exact h2.symm

/-- C6 witness: the day 2 bucket of the sample log counts exactly the single
in-window event of day 2. -/
theorem viewTrends_amended_witness :
    (1 : Nat) = (exViews.filter (inWindow exNow)).countP
        (fun v => decide (dayOf v.viewed_at = 2)) :=
  (viewTrends_amended exViews exNow).2.2 2 1 (by decide)

/-- C8: once loading finishes, an authenticated principal whose present role
is outside the required set of a gated route (teacher or admin for upload and
analytics, admin for users) is sent to the dashboard route rather than an
error page, and an unauthenticated principal is sent to the auth route
whatever the role requirement. -/
theorem protectedRoute_redirects (rs : List Role) (hrs : rs ∈ gatedRoutes)
    (u : Nat) (ro : Role) (hro : ro ∉ rs) :
    protectedRoute false (some u) (some ro) (some rs) = RouteResult.toDashboard ∧
    ∀ (role : Option Role) (req : Option (List Role)),
      protectedRoute false none role req = RouteResult.toAuth := by
  refine ⟨by simp [protectedRoute, hro], ?_⟩
  intro role req
  simp [protectedRoute]

/-- C8 witness: a student principal requesting the users route (admin only) is
redirected to the dashboard, and an unauthenticated request is redirected to
the auth route. -/
theorem protectedRoute_redirects_witness :
    protectedRoute false (some 3) (some Role.student) (some [Role.admin]) =
        RouteResult.toDashboard ∧
    protectedRoute false none (some Role.student) (some [Role.admin]) =
        RouteResult.toAuth :=
  ⟨(protectedRoute_redirects [Role.admin] (by decide) 3 Role.student (by decide)).1,
   (protectedRoute_redirects [Role.admin] (by decide) 3 Role.student (by decide)).2
     (some Role.student) (some [Role.admin])⟩

/-- C9: an authenticated user whose resolved role is absent passes any role
gate: with a non-empty requireRole list and userRole null, ProtectedRoute
renders the protected children instead of redirecting. -/
theorem protectedRoute_null_role_passes (u : Nat) (rs : List Role)
    (hrs : rs ≠ []) :
    protectedRoute false (some u) none (some rs) = RouteResult.children := by
  simp [protectedRoute]

/-- C9 witness: with role requirement admin and no resolved role, the children
render. -/
theorem protectedRoute_null_role_passes_witness :
    protectedRoute false (some 3) none (some [Role.admin]) = RouteResult.children :=
  protectedRoute_null_role_passes 3 [Role.admin] (by decide)

theorem rvRun_append (l1 l2 : List RVAction) (s : RVState) :
    rvRun (l1 ++ l2) s = rvRun l2 (rvRun l1 s) := by
  simp [rvRun, List.foldl_append]

/-- C2 counterexample: a valid interleaving of 2 concurrent recordView
invocations in which both read the counter before either writes leaves the
counter at 1, not 2; equivalently, two handleView calls sharing the same
fetched snapshot of the one-row sample store leave its view_count at 1. -/
theorem recordView_race_counterexample :
    validSchedule 2 raceSchedule = true ∧
    (rvRun raceSchedule ⟨0, []⟩).count = 1 ∧
    (rvRun raceSchedule ⟨0, []⟩).count ≠ 2 ∧
    (findResource (handleView (handleView sampleDb sampleRes (some 5) 10)
        sampleRes (some 5) 11) sampleRes.id).map (fun r => r.view_count) =
      some 1 := by
  refine ⟨by decide, by decide, by decide, ?_⟩
  rfl

/-- C2 amended: when the N invocations run serially (each read and write
completing before the next invocation starts) the counter grows by exactly N,
for every N and every starting state; but there is a valid concurrent
interleaving of 2 invocations after which the counter grew by only 1, so
exactly-N does NOT hold regardless of interleaving. -/
theorem recordView_serial_increment :
    (∀ (n c : Nat) (regs : List (Nat × Nat)),
      (rvRun (seqSchedule n) ⟨c, regs⟩).count = c + n) ∧
    (∃ acts, validSchedule 2 acts = true ∧ (rvRun acts ⟨0, []⟩).count = 1) := by
  constructor
  · intro n
    induction n with
    | zero =>
      intro c regs
      simp [seqSchedule, rvRun]
    | succ k ih =>
      intro c regs
      rw [seqSchedule, rvRun_append]
      have h := ih c regs
      generalize hst : rvRun (seqSchedule k) ⟨c, regs⟩ = st at h
      simp [rvRun, rvStep, lookupReg, List.find?]
      omega
  · exact ⟨raceSchedule, by decide, by decide⟩
